import Mathlib

/-!
Shallow embedding of `src/semaphore/chip/drivers/python/grid_io/ht16k33.py`,
the HT16K33 16×8 LED-controller driver: the display-buffer bit access
(`__getitem__` / `__setitem__` / `__delitem__`), the bulk loader
(`write_bitmap`), the command-byte encoders (`set_brightness`,
`set_blink_rate`), the buffer synchronization (`flush`) and the
construction sequence (`__init__`).

The Python code signals every rejected precondition with an `assert` (and
`__delitem__` with a `raise`); following the specification's error taxonomy,
each such site is mapped to the taxonomy name of its condition.  The I2C
transport (`I2CDevice.write` / `I2CDevice.register_write_u8`) is an external
collaborator whose code is not part of the repository snapshot; where a
property depends on it, it is modelled from the spec as a register/command
write that either succeeds or fails with `TransportError`.
-/

namespace HT16K33

/-- Error taxonomy of the specification; each Python `assert`/`raise` site is
mapped to the taxonomy name for its condition. -/
inductive Err where
  | OutOfRange
  | InvalidArgument
  | ShapeMismatch
  | UnsupportedOperation
  | TransportError
  | InitializationError
deriving DecidableEq, Repr

/-- A value a caller can pass as a bit: a Python `int` or `bool`.  The driver
accepts `0`, `1`, `False` and `True`. -/
inductive Elem where
  | int : Int → Elem
  | bool : Bool → Elem
deriving DecidableEq, Repr

/-- Python `def is_bit(e): return e in [0, 1, False, True]` — in Python `False == 0`
and `True == 1`, so for an int this is membership in `{0, 1}`, and every bool
is accepted. -/
def is_bit : Elem → Bool
  | .int n => decide (n = 0) || decide (n = 1)
  | .bool _ => true

/-- The boolean-coercion prologue of `__setitem__` and `fill`:
`if value is True: value = 1 elif value is False: value = 0`. -/
def coerceBit : Elem → Int
  | .int n => n
  | .bool b => if b then 1 else 0

def MEM_ROWS : Nat := 16
def MEM_COLS : Nat := 8

def BLINK_OFF : Nat := 0
def BLINK_2HZ : Nat := 1
def BLINK_1HZ : Nat := 2
def BLINK_HALFHZ : Nat := 3

def BLINK_DISPLAYON : Nat := 0x01
def SYSTEM_OSCILLATOR_ON : Nat := 0x01

def CMD_BLINK : Nat := 0x80
def CMD_BRIGHTNESS : Nat := 0xE0
def CMD_SYSTEM_SETUP : Nat := 0x20

/-- The display buffer: the Python `bytearray([0] * 16)`, one byte per row. -/
abbrev Buffer := List Nat

/-- The row byte after `__setitem__` touches bit `c`.  The Python clear path
is `row_byte & (~(0x1 << column) & 0xFFFF)`: over two's-complement integers,
for `column < 16` the mask `~(1 << column) & 0xFFFF` equals
`0xFFFF ^^^ (1 <<< column)`.  The set path is `row_byte | (0x1 << column)`. -/
def updByte (x c : Nat) (v : Int) : Nat :=
  if v = 0 then x &&& (0xFFFF ^^^ (1 <<< c)) else x ||| (1 <<< c)

/-- Embedding of `HT16K33.__getitem__`: check `0 <= row < 16` (else `OutOfRange`), check
`0 <= column < 8` (else `OutOfRange`), then return
`(buffer[row] >> column) & 0x1`. -/
def getItem (buf : Buffer) (row column : Int) : Except Err Nat :=
  if 0 ≤ row ∧ row < 16 then
    if 0 ≤ column ∧ column < 8 then
      .ok ((buf.getD row.toNat 0 >>> column.toNat) &&& 1)
    else .error .OutOfRange
  else .error .OutOfRange

/-- Embedding of `HT16K33.__setitem__`: coerce booleans, check `0 <= row < 16` and
`0 <= column < 8` (else `OutOfRange`), check `value in [0, 1]` (else
`InvalidArgument`), then clear or set the addressed bit of the row byte.
The asserts all precede the mutation, so an error leaves the buffer as it
was; in this encoding an `Except.error` result carries no new buffer. -/
def setItem (buf : Buffer) (row column : Int) (value : Elem) : Except Err Buffer :=
  let v := coerceBit value
  if 0 ≤ row ∧ row < 16 then
    if 0 ≤ column ∧ column < 8 then
      if v = 0 ∨ v = 1 then
        .ok (buf.set row.toNat (updByte (buf.getD row.toNat 0) column.toNat v))
      else .error .InvalidArgument
    else .error .OutOfRange
  else .error .OutOfRange

/-- Embedding of `HT16K33.__delitem__`: unconditionally `raise RuntimeError('Cannot delete
bits')` — `UnsupportedOperation` in the taxonomy — without reading or writing
the buffer; the unchanged buffer is returned alongside the error. -/
def delItem (buf : Buffer) (key : Int × Int) : Except Err Unit × Buffer :=
  (.error .UnsupportedOperation, buf)

/-- The validation loop of `write_bitmap`: for each row in order,
`assert len(row) == 8` (else `ShapeMismatch`) and then
`assert all(map(is_bit, row))` (else `InvalidArgument`). -/
def checkRows : List (List Elem) → Option Err
  | [] => none
  | r :: rs =>
    if r.length = MEM_COLS then
      if r.all is_bit then checkRows rs else some .InvalidArgument
    else some .ShapeMismatch

/-- The copy loop of `write_bitmap`:
`for row in range(16): for column in range(8): self[row, column] = bitmap[row][column]`,
going through `__setitem__`. -/
def copyBitmap (buf : Buffer) (bitmap : List (List Elem)) : Except Err Buffer :=
  (List.range MEM_ROWS).foldlM (fun b (row : Nat) =>
    (List.range MEM_COLS).foldlM (fun b2 (column : Nat) =>
      setItem b2 (row : Int) (column : Int)
        ((bitmap.getD row []).getD column (.int 0))) b) buf

/-- Embedding of `HT16K33.write_bitmap`: `assert len(bitmap) == 16` (else `ShapeMismatch`),
then the per-row validation loop, then the copy loop.  All validation precedes
the first buffer write. -/
def write_bitmap (buf : Buffer) (bitmap : List (List Elem)) : Except Err Buffer :=
  if bitmap.length = MEM_ROWS then
    match checkRows bitmap with
    | some e => .error e
    | none => copyBitmap buf bitmap
  else .error .ShapeMismatch

/-- Embedding of `HT16K33.fill`: coerce booleans, `assert value in [0, 1]`, then set every
row byte to `value * 255`. -/
def fill (buf : Buffer) (value : Elem) : Except Err Buffer :=
  let v := coerceBit value
  if v = 0 ∨ v = 1 then .ok (List.replicate MEM_ROWS (v.toNat * 255))
  else .error .InvalidArgument

/-- Embedding of `HT16K33.clear`: `self.fill(0)`. -/
def clear (buf : Buffer) : Except Err Buffer :=
  fill buf (.int 0)

/-- Embedding of `HT16K33.set_brightness`: `assert 0 <= value <= 15` (else
`InvalidArgument`), then dispatch the command byte
`_CMD_BRIGHTNESS | value`.  The result is the byte handed to the transport;
on error the assert fires before `self.write`, so no byte is dispatched. -/
def set_brightness (value : Int) : Except Err Nat :=
  if 0 ≤ value ∧ value ≤ 15 then .ok (CMD_BRIGHTNESS ||| value.toNat)
  else .error .InvalidArgument

/-- Embedding of `HT16K33.set_blink_rate`: `assert value in [BLINK_OFF, BLINK_2HZ,
BLINK_1HZ, BLINK_HALFHZ]` (else `InvalidArgument`), then dispatch the command
byte `_CMD_BLINK | _BLINK_DISPLAYON | (value << 1)`.  As for
`set_brightness`, on error no byte is dispatched. -/
def set_blink_rate (value : Int) : Except Err Nat :=
  if value = 0 ∨ value = 1 ∨ value = 2 ∨ value = 3 then
    .ok (CMD_BLINK ||| BLINK_DISPLAYON ||| (value.toNat <<< 1))
  else .error .InvalidArgument

/-- Loop body of `HT16K33.flush`, `for address, value in enumerate(self._display_buffer):
self.register_write_u8(address, value)`.  Modelled from the spec: the
transport's `register_write_u8` (class `I2CDevice`, not under `src/`) either
succeeds or fails with `TransportError`; `ok a` says whether the write to
register address `a` succeeds.  Returns the list of `(address, value)` writes
attempted (the failing one included) and the outcome; the loop stops at the
first failure, as a raised exception aborts a Python `for` loop. -/
def flushAux (ok : Nat → Bool) : Nat → List Nat → List (Nat × Nat) × Except Err Unit
  | _, [] => ([], .ok ())
  | addr, v :: rest =>
    if ok addr then
      let p := flushAux ok (addr + 1) rest
      ((addr, v) :: p.1, p.2)
    else ([(addr, v)], .error .TransportError)

/-- Embedding of `HT16K33.flush`: push every buffer row to its register, addresses counted
up from 0 by `enumerate`.  The method never assigns to `_display_buffer`, so
the buffer it leaves behind is the input buffer, returned as the second
component. -/
def flush (ok : Nat → Bool) (buf : Buffer) :
    (List (Nat × Nat) × Except Err Unit) × Buffer :=
  (flushAux ok 0 buf, buf)

/-- A transport operation issued during construction: a raw command write
(`self.write(byte)`) or a register write (`self.register_write_u8(addr, value)`). -/
inductive Write where
  | cmd : Nat → Write
  | reg : Nat → Nat → Write
deriving DecidableEq, Repr

/-- Embedding of `HT16K33.__init__` after `super().__init__`: zero the 16-row buffer, send
`_CMD_SYSTEM_SETUP | _SYSTEM_OSCILLATOR_ON`, `flush()`, `set_blink_rate(BLINK_OFF)`,
`set_brightness(15)`.  Modelled from the spec: the transport (not under
`src/`) may fail any write with `TransportError`; `ok i` says whether the
`i`-th transport operation of the sequence succeeds (index 0 the setup
command, 1–16 the sixteen flush register writes, 17 the blink command, 18 the
brightness command).  A raised transport error propagates out of `__init__`
unwrapped, aborting the remaining steps.  Returns the trace of attempted
writes and either the final buffer or the error. -/
def initTrace (ok : Nat → Bool) : List Write × Except Err Buffer :=
  let buf : Buffer := List.replicate MEM_ROWS 0
  let b0 := CMD_SYSTEM_SETUP ||| SYSTEM_OSCILLATOR_ON
  if ok 0 then
    let fl := flushAux (fun a => ok (a + 1)) 0 buf
    let tr1 := Write.cmd b0 :: fl.1.map (fun p => Write.reg p.1 p.2)
    match fl.2 with
    | .error e => (tr1, .error e)
    | .ok _ =>
      match set_blink_rate (BLINK_OFF : Nat) with
      | .error e => (tr1, .error e)
      | .ok b1 =>
        if ok 17 then
          match set_brightness 15 with
          | .error e => (tr1 ++ [Write.cmd b1], .error e)
          | .ok b2 =>
            (tr1 ++ [Write.cmd b1, Write.cmd b2],
              if ok 18 then .ok buf else .error .TransportError)
        else (tr1 ++ [Write.cmd b1], .error .TransportError)
  else ([Write.cmd b0], .error .TransportError)

/-- The trace of a fully successful construction sequence. -/
def fullInitTrace : List Write :=
  Write.cmd 0x21 :: ((List.range 16).map (fun a => Write.reg a 0) ++
    [Write.cmd 0x81, Write.cmd 0xEF])

/-- A 16-row matrix whose first row contains the non-bit value `2` and whose
second row has only 7 entries, so its dimensions differ from 16×8. -/
def badBitmap : List (List Elem) :=
  [Elem.int 0, .int 0, .int 0, .int 0, .int 0, .int 0, .int 0, .int 2] ::
  [Elem.int 0, .int 0, .int 0, .int 0, .int 0, .int 0, .int 0] ::
  List.replicate 14 (List.replicate 8 (Elem.int 0))

/-! ## Helper lemmas -/

theorem getD_set_self (l : Buffer) (i x : Nat) (h : i < l.length) :
    (l.set i x).getD i 0 = x := by
  simp [List.getD_eq_getElem?_getD, List.getElem?_set_self, h]

theorem getD_set_ne (l : Buffer) (i j x : Nat) (h : i ≠ j) :
    (l.set i x).getD j 0 = l.getD j 0 := by
  simp [List.getD_eq_getElem?_getD, List.getElem?_set_ne h]

theorem shift_and_one (x c : Nat) : (x >>> c) &&& 1 = (x.testBit c).toNat := by
  rw [Nat.and_one_is_mod, Nat.shiftRight_eq_div_pow, Nat.testBit_to_div_mod]
  rcases Nat.mod_two_eq_zero_or_one (x / 2 ^ c) with h | h <;> simp [h]

theorem testBit_ffff (c : Nat) (hc : c < 16) : (0xFFFF : Nat).testBit c = true := by
  rw [show (0xFFFF : Nat) = 2 ^ 16 - 1 by norm_num, Nat.testBit_two_pow_sub_one]
  simpa using hc

theorem testBit_updByte_self (x c : Nat) (v : Int) (hc : c < 16)
    (hv : v = 0 ∨ v = 1) : (updByte x c v).testBit c = decide (v = 1) := by
  rcases hv with hv | hv <;> subst hv
  · simp [updByte, Nat.testBit_and, Nat.testBit_xor, Nat.one_shiftLeft,
      Nat.testBit_two_pow_self, testBit_ffff c hc]
  · simp [updByte, Nat.testBit_or, Nat.one_shiftLeft, Nat.testBit_two_pow_self]

theorem testBit_updByte_ne (x c : Nat) (v : Int) (c' : Nat) (hne : c ≠ c')
    (hc' : c' < 16) : (updByte x c v).testBit c' = x.testBit c' := by
  unfold updByte
  split
  · simp [Nat.testBit_and, Nat.testBit_xor, Nat.one_shiftLeft,
      Nat.testBit_two_pow_of_ne hne, testBit_ffff c' hc']
  · simp [Nat.testBit_or, Nat.one_shiftLeft, Nat.testBit_two_pow_of_ne hne]

theorem coerceBit_mem (e : Elem) (he : is_bit e = true) :
    coerceBit e = 0 ∨ coerceBit e = 1 := by
  cases e with
  | int n =>
    simp only [is_bit, Bool.or_eq_true, decide_eq_true_eq] at he
    simpa [coerceBit] using he
  | bool b => cases b <;> simp [coerceBit]

theorem getItem_valid (buf : Buffer) (r c : Nat) (hr : r < 16) (hc : c < 8) :
    getItem buf (r : Int) (c : Int) = .ok ((buf.getD r 0).testBit c).toNat := by
  have h1 : (0 : Int) ≤ (r : Int) ∧ (r : Int) < 16 := by omega
  have h2 : (0 : Int) ≤ (c : Int) ∧ (c : Int) < 8 := by omega
  simp only [getItem, if_pos h1, if_pos h2, Int.toNat_natCast]
  rw [shift_and_one]

theorem setItem_valid (buf : Buffer) (r c : Nat) (hr : r < 16) (hc : c < 8)
    (e : Elem) (he : is_bit e = true) :
    setItem buf (r : Int) (c : Int) e =
      .ok (buf.set r (updByte (buf.getD r 0) c (coerceBit e))) := by
  have h1 : (0 : Int) ≤ (r : Int) ∧ (r : Int) < 16 := by omega
  have h2 : (0 : Int) ≤ (c : Int) ∧ (c : Int) < 8 := by omega
  simp only [setItem, if_pos h1, if_pos h2, if_pos (coerceBit_mem e he),
    Int.toNat_natCast]

/-! ## Claim theorems -/

/-- C5: for every coordinate pair with row ≥ 16 or column ≥ 8, both
`get(row, column)` and `set(row, column, b)` fail with `OutOfRange`; the
failing `set` produces no new buffer, as the range asserts precede the
mutation. -/
theorem get_set_out_of_range (buf : Buffer) (row column : Int)
    (h : 16 ≤ row ∨ 8 ≤ column) :
    getItem buf row column = .error .OutOfRange ∧
      ∀ value : Elem, setItem buf row column value = .error .OutOfRange := by
  constructor
  · unfold getItem
    split
    · split
      · omega
      · rfl
    · rfl
  · intro value
    unfold setItem
    split
    · split
      · omega
      · rfl
    · rfl

theorem get_set_out_of_range_witness :
    getItem (List.replicate 16 0) 16 3 = .error .OutOfRange ∧
      ∀ value : Elem, setItem (List.replicate 16 0) 16 3 value = .error .OutOfRange :=
  get_set_out_of_range (List.replicate 16 0) 16 3 (by decide)

/-- C10: `get` and `set` also reject every negative row or column with
`OutOfRange` — the range checks are two-sided — so no negative-index
wraparound into the row storage ever occurs, and the rejected `set` produces
no new buffer. -/
theorem get_set_negative_rejected (buf : Buffer) (row column : Int)
    (h : row < 0 ∨ column < 0) :
    getItem buf row column = .error .OutOfRange ∧
      ∀ value : Elem, setItem buf row column value = .error .OutOfRange := by
  constructor
  · unfold getItem
    split
    · split
      · omega
      · rfl
    · rfl
  · intro value
    unfold setItem
    split
    · split
      · omega
      · rfl
    · rfl

theorem get_set_negative_rejected_witness :
    getItem (List.replicate 16 0) (-1) (-2) = .error .OutOfRange ∧
      ∀ value : Elem,
        setItem (List.replicate 16 0) (-1) (-2) value = .error .OutOfRange :=
  get_set_negative_rejected (List.replicate 16 0) (-1) (-2) (by decide)

/-- C6: `set_brightness` dispatches the byte `0xE0 ||| level` for every level
in `[0, 15]` (`0xE0` at 0, `0xEF` at 15) and fails with `InvalidArgument` for
every level outside `[0, 15]` (such as 16 and −1); on failure the assert
fires before `self.write`, so no byte reaches the transport. -/
theorem set_brightness_spec (value : Int) :
    (0 ≤ value ∧ value ≤ 15 → set_brightness value = .ok (0xE0 ||| value.toNat)) ∧
    (¬ (0 ≤ value ∧ value ≤ 15) → set_brightness value = .error .InvalidArgument) ∧
    set_brightness 0 = .ok 0xE0 ∧ set_brightness 15 = .ok 0xEF ∧
    set_brightness 16 = .error .InvalidArgument ∧
    set_brightness (-1) = .error .InvalidArgument := by
  refine ⟨fun h => ?_, fun h => ?_, rfl, rfl, rfl, rfl⟩
  · simp [set_brightness, h, CMD_BRIGHTNESS]
  · simp [set_brightness, h]

theorem set_brightness_spec_witness :
    set_brightness 7 = .ok (0xE0 ||| (7 : Int).toNat) :=
  (set_brightness_spec 7).1 (by decide)

/-- C7: `set_blink_rate` dispatches the byte
`0x80 ||| 0x01 ||| (mode <<< 1)` for each of the four defined blink modes
(`OFF = 0`, `2HZ = 1`, `1HZ = 2`, `HALFHZ = 3`) — so `BLINK_1HZ` encodes to
`0x85` and the display-on bit `0x01` is always set — and fails with
`InvalidArgument` for any other mode; on failure the assert fires before
`self.write`, so no byte reaches the transport. -/
theorem set_blink_rate_spec (value : Int) :
    (value = 0 ∨ value = 1 ∨ value = 2 ∨ value = 3 →
      set_blink_rate value = .ok (0x80 ||| 0x01 ||| (value.toNat <<< 1))) ∧
    (¬ (value = 0 ∨ value = 1 ∨ value = 2 ∨ value = 3) →
      set_blink_rate value = .error .InvalidArgument) ∧
    set_blink_rate 2 = .ok 0x85 ∧
    (∀ v : Int, ∀ b : Nat, set_blink_rate v = .ok b → b &&& 0x01 = 0x01) := by
  refine ⟨fun h => ?_, fun h => ?_, rfl, fun v b hb => ?_⟩
  · simp [set_blink_rate, h, CMD_BLINK, BLINK_DISPLAYON]
  · simp [set_blink_rate, h]
  · unfold set_blink_rate at hb
    split at hb
    · rename_i hv
      rcases hv with hv | hv | hv | hv <;> subst hv <;>
        simp only [Except.ok.injEq] at hb <;> subst hb <;> rfl
    · exact absurd hb (by simp)

theorem set_blink_rate_spec_witness :
    set_blink_rate 3 = .ok (0x80 ||| 0x01 ||| ((3 : Int).toNat <<< 1)) :=
  (set_blink_rate_spec 3).1 (by decide)

/-- C8: the delete operation on any coordinate, valid or not, always fails
with `UnsupportedOperation` (the Python `__delitem__` unconditionally raises)
and the buffer it leaves behind is exactly the input buffer. -/
theorem delItem_spec (buf : Buffer) (key : Int × Int) :
    delItem buf key = (.error .UnsupportedOperation, buf) := rfl

/-- C1: for every row in `[0, 16)`, column in `[0, 8)` and bit `b ∈ {0, 1}`:
after `set(row, column, b)` on any 16-row buffer, `get(row, column)` returns
`b`, and `get(row', column')` is unchanged for every other valid coordinate
pair. -/
theorem set_then_get (buf : Buffer) (hlen : buf.length = 16)
    (row column : Nat) (hr : row < 16) (hc : column < 8)
    (b : Int) (hb : b = 0 ∨ b = 1) :
    ∃ buf',
      setItem buf (row : Int) (column : Int) (.int b) = .ok buf' ∧
      getItem buf' (row : Int) (column : Int) = .ok b.toNat ∧
      ∀ row' column' : Nat, row' < 16 → column' < 8 →
        (row', column') ≠ (row, column) →
        getItem buf' (row' : Int) (column' : Int) =
          getItem buf (row' : Int) (column' : Int) := by
  have he : is_bit (.int b) = true := by rcases hb with h | h <;> simp [is_bit, h]
  refine ⟨buf.set row (updByte (buf.getD row 0) column b), ?_, ?_, ?_⟩
  · rw [setItem_valid buf row column hr hc _ he]
    rfl
  · rw [getItem_valid _ row column hr hc, getD_set_self _ _ _ (by omega),
      testBit_updByte_self _ _ _ (by omega) hb]
    rcases hb with h | h <;> subst h <;> rfl
  · intro row' column' hr' hc' hne
    rw [getItem_valid _ row' column' hr' hc', getItem_valid _ row' column' hr' hc']
    by_cases hrow : row' = row
    · subst hrow
      have hcol : column ≠ column' := by
        intro hcol
        exact hne (by rw [hcol])
      rw [getD_set_self _ _ _ (by omega),
        testBit_updByte_ne _ _ _ _ hcol (by omega)]
    · rw [getD_set_ne _ _ _ _ (fun hh => hrow hh.symm)]

theorem set_then_get_witness :
    ∃ buf',
      setItem (List.replicate 16 0) ((3 : Nat) : Int) ((2 : Nat) : Int) (.int 1) = .ok buf' ∧
      getItem buf' ((3 : Nat) : Int) ((2 : Nat) : Int) = .ok (1 : Int).toNat ∧
      ∀ row' column' : Nat, row' < 16 → column' < 8 →
        (row', column') ≠ (3, 2) →
        getItem buf' (row' : Int) (column' : Int) =
          getItem (List.replicate 16 0) (row' : Int) (column' : Int) :=
  set_then_get (List.replicate 16 0) (by decide) 3 2 (by decide) (by decide) 1 (by decide)

theorem trace_cons_eq (addr m v : Nat) (rest : List Nat) :
    ((addr, v) :: (List.range m).map (fun i => (addr + 1 + i, rest.getD i 0))) =
      (List.range (m + 1)).map (fun i => (addr + i, (v :: rest).getD i 0)) := by
  conv_rhs => rw [List.range_succ_eq_map, List.map_cons, List.map_map]
  refine congrArg₂ List.cons (by simp) ?_
  refine List.map_congr_left fun i _ => ?_
  simp only [Function.comp_apply, List.getD_cons_succ, Nat.succ_eq_add_one]
  refine congrArg (fun n => (n, rest.getD i 0)) (by omega)

theorem flushAux_ok (ok : Nat → Bool) :
    ∀ (l : List Nat) (addr : Nat), (∀ i, i < l.length → ok (addr + i) = true) →
    flushAux ok addr l =
      ((List.range l.length).map (fun i => (addr + i, l.getD i 0)), .ok ()) := by
  intro l
  induction l with
  | nil => intro addr h; rfl
  | cons v rest ih =>
    intro addr h
    have h0 : ok addr = true := by simpa using h 0 (by simp)
    have hrest : ∀ i, i < rest.length → ok (addr + 1 + i) = true := by
      intro i hi
      have := h (i + 1) (by simpa using Nat.succ_lt_succ hi)
      simpa [Nat.add_assoc, Nat.add_comm 1 i] using this
    simp only [flushAux, h0, if_true, ih (addr + 1) hrest]
    rw [List.length_cons, ← trace_cons_eq]

theorem flushAux_fail (ok : Nat → Bool) :
    ∀ (l : List Nat) (k addr : Nat), k < l.length →
    (∀ i, i < k → ok (addr + i) = true) → ok (addr + k) = false →
    flushAux ok addr l =
      ((List.range (k + 1)).map (fun i => (addr + i, l.getD i 0)),
        .error .TransportError) := by
  intro l
  induction l with
  | nil => intro k addr hk; simp at hk
  | cons v rest ih =>
    intro k addr hk hpre hfail
    cases k with
    | zero =>
      have h0 : ok addr = false := by simpa using hfail
      simp [flushAux, h0, show List.range (0 + 1) = [0] from rfl]
    | succ k' =>
      have h0 : ok addr = true := by simpa using hpre 0 (Nat.succ_pos _)
      have hpre' : ∀ i, i < k' → ok (addr + 1 + i) = true := by
        intro i hi
        have := hpre (i + 1) (Nat.succ_lt_succ hi)
        simpa [Nat.add_assoc, Nat.add_comm 1 i] using this
      have hfail' : ok (addr + 1 + k') = false := by
        have : addr + 1 + k' = addr + (k' + 1) := by omega
        rw [this]; exact hfail
      simp only [flushAux, h0, if_true,
        ih k' (addr + 1) (by simpa using Nat.lt_of_succ_lt_succ hk) hpre' hfail']
      rw [← trace_cons_eq]

/-- C2: `flush()` on a 16-row buffer issues exactly 16 register writes, to
addresses 0 through 15 in ascending order, each carrying the buffer row byte
for that address; if the k-th register write fails, no write with a higher
address is attempted (the trace stops at the failing write), a
`TransportError` surfaces, and the in-memory buffer — the second component of
the result — is the unchanged input buffer in all cases. -/
theorem flush_spec (buf : Buffer) (ok : Nat → Bool) (hlen : buf.length = 16) :
    ((∀ a, a < 16 → ok a = true) →
      flush ok buf =
        (((List.range 16).map (fun a => (a, buf.getD a 0)), .ok ()), buf)) ∧
    (∀ k, k < 16 → (∀ a, a < k → ok a = true) → ok k = false →
      flush ok buf =
        (((List.range (k + 1)).map (fun a => (a, buf.getD a 0)),
          .error .TransportError), buf)) := by
  constructor
  · intro h
    unfold flush
    rw [flushAux_ok ok buf 0
      (fun i hi => by rw [Nat.zero_add]; exact h i (by omega)), hlen]
    refine congrArg (fun t => ((t, Except.ok ()), buf)) ?_
    exact List.map_congr_left fun i _ => by rw [Nat.zero_add]
  · intro k hk hpre hfail
    unfold flush
    rw [flushAux_fail ok buf k 0 (by omega)
      (fun i hi => by rw [Nat.zero_add]; exact hpre i hi)
      (by rw [Nat.zero_add]; exact hfail)]
    refine congrArg (fun t => ((t, Except.error Err.TransportError), buf)) ?_
    exact List.map_congr_left fun i _ => by rw [Nat.zero_add]

theorem flush_spec_witness :
    flush (fun a => decide (a ≠ 5)) (List.range 16) =
      (((List.range 6).map (fun a => (a, (List.range 16).getD a 0)),
        .error .TransportError), List.range 16) :=
  (flush_spec (List.range 16) (fun a => decide (a ≠ 5)) (by simp)).2 5
    (by decide) (by decide) (by decide)

/-- A row passes `write_bitmap`'s per-row validation when it has 8 entries
and every entry is a bit. -/
def rowOk (row : List Elem) : Prop :=
  row.length = 8 ∧ row.all is_bit = true

instance (row : List Elem) : Decidable (rowOk row) := by
  unfold rowOk; infer_instance

theorem checkRows_none : ∀ (l : List (List Elem)),
    (∀ row ∈ l, rowOk row) → checkRows l = none := by
  intro l
  induction l with
  | nil => intro h; rfl
  | cons r rs ih =>
    intro h
    have hr := h r (by simp)
    simp only [checkRows, MEM_COLS, if_pos hr.1, hr.2, if_true]
    exact ih fun row hrow => h row (by simp [hrow])

theorem checkRows_first_fail : ∀ (l : List (List Elem)) (i : Nat),
    i < l.length → (∀ j, j < i → rowOk (l.getD j [])) → ¬ rowOk (l.getD i []) →
    checkRows l =
      some (if (l.getD i []).length = 8 then .InvalidArgument else .ShapeMismatch) := by
  intro l
  induction l with
  | nil => intro i hi; simp at hi
  | cons r rs ih =>
    intro i hi hpre hbad
    cases i with
    | zero =>
      simp only [List.getD_cons_zero] at hbad ⊢
      unfold checkRows
      by_cases hl : r.length = 8
      · have hnb : ¬ r.all is_bit = true := fun hb => hbad ⟨hl, hb⟩
        simp [MEM_COLS, hl, hnb]
      · simp [MEM_COLS, hl]
    | succ i' =>
      have h0 : rowOk r := by simpa using hpre 0 (Nat.succ_pos _)
      simp only [List.getD_cons_succ] at hbad ⊢
      unfold checkRows
      rw [show MEM_COLS = 8 from rfl, if_pos h0.1, if_pos h0.2]
      exact ih i' (by simpa using Nat.lt_of_succ_lt_succ hi)
        (fun j hj => by simpa using hpre (j + 1) (Nat.succ_lt_succ hj)) hbad

/-- C4 (amended): `write_bitmap` validates the whole matrix before copying a
single cell, so a malformed matrix leaves the buffer untouched; a matrix with
a row count other than 16 fails with `ShapeMismatch`; otherwise rows are
scanned in order and the first offending row decides the error — its length
is checked (`ShapeMismatch`) before its elements (`InvalidArgument`), so a
non-bit element in an earlier row is reported as `InvalidArgument` even when a
later row has the wrong length. -/
theorem write_bitmap_validation (buf : Buffer) (bitmap : List (List Elem)) :
    (bitmap.length ≠ 16 → write_bitmap buf bitmap = .error .ShapeMismatch) ∧
    (∀ i, bitmap.length = 16 → i < 16 →
      (∀ j, j < i → rowOk (bitmap.getD j [])) → ¬ rowOk (bitmap.getD i []) →
      write_bitmap buf bitmap =
        .error (if (bitmap.getD i []).length = 8
          then .InvalidArgument else .ShapeMismatch)) := by
  constructor
  · intro h
    simp [write_bitmap, MEM_ROWS, h]
  · intro i hlen hi hpre hbad
    unfold write_bitmap
    rw [if_pos (by simpa [MEM_ROWS] using hlen),
      checkRows_first_fail bitmap i (by omega) hpre hbad]

theorem write_bitmap_validation_witness :
    write_bitmap (List.replicate 16 0) [] = .error .ShapeMismatch :=
  (write_bitmap_validation (List.replicate 16 0) []).1 (by decide)

/-- C4 (counterexample to the claim as stated): `badBitmap` has 16 rows but
its second row has 7 entries, so its dimensions differ from 16×8, yet
`write_bitmap` reports `InvalidArgument` — the non-bit `2` in the first row
is checked before the second row's length — not `ShapeMismatch`. -/
theorem write_bitmap_shape_counterexample :
    badBitmap.length = 16 ∧ (badBitmap.getD 1 []).length = 7 ∧
    write_bitmap (List.replicate 16 0) badBitmap = .error .InvalidArgument ∧
    Err.InvalidArgument ≠ Err.ShapeMismatch :=
  ⟨by decide, by decide, by rfl, by decide⟩

theorem copyRow_fold (bitmap : List (List Elem)) (r : Nat) (hr : r < 16)
    (hlen8 : (bitmap.getD r []).length = 8)
    (hbits : (bitmap.getD r []).all is_bit = true) :
    ∀ (L : List Nat), (∀ c ∈ L, c < 8) → ∀ (buf : Buffer), buf.length = 16 →
    ∃ buf', L.foldlM (fun b2 (column : Nat) =>
        setItem b2 (r : Int) (column : Int)
          ((bitmap.getD r []).getD column (.int 0))) buf = .ok buf' ∧
      buf'.length = 16 ∧
      (∀ r', r' ≠ r → buf'.getD r' 0 = buf.getD r' 0) ∧
      (∀ c, c < 8 → (buf'.getD r 0).testBit c =
        (if c ∈ L then decide (coerceBit ((bitmap.getD r []).getD c (.int 0)) = 1)
         else (buf.getD r 0).testBit c)) := by
  intro L
  induction L with
  | nil =>
    intro hL buf hbuf
    exact ⟨buf, rfl, hbuf, fun r' _ => rfl, fun c hc => by simp⟩
  | cons c0 L' ih =>
    intro hL buf hbuf
    have hc0 : c0 < 8 := hL c0 (by simp)
    have he : is_bit ((bitmap.getD r []).getD c0 (.int 0)) = true := by
      have hmem : (bitmap.getD r []).getD c0 (.int 0) ∈ bitmap.getD r [] := by
        rw [List.getD_eq_getElem (bitmap.getD r []) (Elem.int 0)
          (show c0 < (bitmap.getD r []).length by omega)]
        exact List.getElem_mem _
      exact List.all_eq_true.mp hbits _ hmem
    obtain ⟨buf'', hfold, hlen'', hframe, hbits''⟩ :=
      ih (fun c hc => hL c (by simp [hc]))
        (buf.set r (updByte (buf.getD r 0) c0
          (coerceBit ((bitmap.getD r []).getD c0 (.int 0)))))
        (by simp [hbuf])
    refine ⟨buf'', ?_, hlen'', ?_, ?_⟩
    · rw [List.foldlM_cons, setItem_valid buf r c0 hr hc0 _ he]
      simpa using hfold
    · intro r' hne
      rw [hframe r' hne, getD_set_ne _ _ _ _ (fun hh => hne hh.symm)]
    · intro c hc
      have hmid : ((buf.set r (updByte (buf.getD r 0) c0
          (coerceBit ((bitmap.getD r []).getD c0 (.int 0))))).getD r 0) =
          updByte (buf.getD r 0) c0
            (coerceBit ((bitmap.getD r []).getD c0 (.int 0))) :=
        getD_set_self _ _ _ (by omega)
      rw [hbits'' c hc]
      by_cases hmem : c ∈ L'
      · rw [if_pos hmem, if_pos (by simp [hmem])]
      · rw [if_neg hmem, hmid]
        by_cases hceq : c = c0
        · subst hceq
          rw [testBit_updByte_self _ _ _ (by omega) (coerceBit_mem _ he),
            if_pos (by simp)]
        · rw [testBit_updByte_ne _ _ _ _ (fun hh => hceq hh.symm) (by omega),
            if_neg (by simp [hceq, hmem])]

theorem copyBitmap_fold (bitmap : List (List Elem)) (hlen : bitmap.length = 16)
    (hrows : ∀ row ∈ bitmap, rowOk row) :
    ∀ (L : List Nat), (∀ r ∈ L, r < 16) → ∀ (buf : Buffer), buf.length = 16 →
    ∃ buf', L.foldlM (fun b (row : Nat) =>
        (List.range MEM_COLS).foldlM (fun b2 (column : Nat) =>
          setItem b2 (row : Int) (column : Int)
            ((bitmap.getD row []).getD column (.int 0))) b) buf = .ok buf' ∧
      buf'.length = 16 ∧
      (∀ r, r ∉ L → buf'.getD r 0 = buf.getD r 0) ∧
      (∀ r, r < 16 → r ∈ L → ∀ c, c < 8 → (buf'.getD r 0).testBit c =
        decide (coerceBit ((bitmap.getD r []).getD c (.int 0)) = 1)) := by
  intro L
  induction L with
  | nil =>
    intro hL buf hbuf
    exact ⟨buf, rfl, hbuf, fun r _ => rfl, fun r _ hmem => absurd hmem (by simp)⟩
  | cons r0 L' ih =>
    intro hL buf hbuf
    have hr0 : r0 < 16 := hL r0 (by simp)
    have hrow0 : rowOk (bitmap.getD r0 []) := by
      refine hrows _ ?_
      rw [List.getD_eq_getElem _ _ (by omega)]
      exact List.getElem_mem _
    obtain ⟨buf1, hfold1, hlen1, hframe1, hbits1⟩ :=
      copyRow_fold bitmap r0 hr0 hrow0.1 hrow0.2 (List.range 8)
        (fun c hc => List.mem_range.mp hc) buf hbuf
    obtain ⟨buf', hfold', hlen', hframe', hbits'⟩ :=
      ih (fun r hr => hL r (by simp [hr])) buf1 hlen1
    refine ⟨buf', ?_, hlen', ?_, ?_⟩
    · rw [List.foldlM_cons, show MEM_COLS = 8 from rfl, hfold1]
      simpa using hfold'
    · intro r hrn
      rw [hframe' r (fun hh => hrn (List.mem_cons_of_mem _ hh)),
        hframe1 r (fun hh => hrn (hh ▸ List.mem_cons_self r0 L'))]
    · intro r hr16 hmem c hc
      by_cases hmemL : r ∈ L'
      · exact hbits' r hr16 hmemL c hc
      · have hreq : r = r0 := by
          rcases List.mem_cons.mp hmem with h | h
          · exact h
          · exact absurd h hmemL
        subst hreq
        rw [hframe' r hmemL, hbits1 c hc, if_pos (List.mem_range.mpr hc)]

/-- C3: for every valid 16×8 matrix whose elements are all in
`{0, 1, True, False}`, `write_bitmap` succeeds and reading back every cell
with `get` reproduces the matrix exactly, with `True`/`False` read back as
1/0 — the round-trip law. -/
theorem write_bitmap_roundtrip (buf : Buffer) (bitmap : List (List Elem))
    (hbuf : buf.length = 16) (hlen : bitmap.length = 16)
    (hrows : ∀ row ∈ bitmap, rowOk row) :
    ∃ buf', write_bitmap buf bitmap = .ok buf' ∧
      ∀ r c : Nat, r < 16 → c < 8 →
        getItem buf' (r : Int) (c : Int) =
          .ok (coerceBit ((bitmap.getD r []).getD c (.int 0))).toNat := by
  obtain ⟨buf', hfold, hlen', hframe, hbits⟩ :=
    copyBitmap_fold bitmap hlen hrows (List.range 16)
      (fun r hr => List.mem_range.mp hr) buf hbuf
  refine ⟨buf', ?_, ?_⟩
  · unfold write_bitmap
    rw [if_pos (by simpa [MEM_ROWS] using hlen), checkRows_none bitmap hrows]
    simpa [copyBitmap, MEM_ROWS] using hfold
  · intro r c hr hc
    rw [getItem_valid _ r c hr hc, hbits r hr (List.mem_range.mpr hr) c hc]
    have hrowr : rowOk (bitmap.getD r []) := by
      refine hrows _ ?_
      rw [List.getD_eq_getElem _ _ (by omega)]
      exact List.getElem_mem _
    have he : is_bit ((bitmap.getD r []).getD c (.int 0)) = true := by
      have hmem : (bitmap.getD r []).getD c (.int 0) ∈ bitmap.getD r [] := by
        rw [List.getD_eq_getElem (bitmap.getD r []) (Elem.int 0)
          (show c < (bitmap.getD r []).length by rw [hrowr.1]; omega)]
        exact List.getElem_mem _
      exact List.all_eq_true.mp hrowr.2 _ hmem
    rcases coerceBit_mem _ he with hv | hv <;> rw [hv] <;> rfl

theorem write_bitmap_roundtrip_witness :
    ∃ buf',
      write_bitmap (List.replicate 16 0)
        (List.replicate 16 (List.replicate 8 (Elem.int 1))) = .ok buf' ∧
      ∀ r c : Nat, r < 16 → c < 8 →
        getItem buf' (r : Int) (c : Int) =
          .ok (coerceBit (((List.replicate 16
            (List.replicate 8 (Elem.int 1))).getD r []).getD c (.int 0))).toNat :=
  write_bitmap_roundtrip (List.replicate 16 0)
    (List.replicate 16 (List.replicate 8 (Elem.int 1)))
    (by decide) (by decide) (by decide)

theorem regTrace_eq :
    ((List.range 16).map (fun i => (i, (List.replicate 16 (0 : Nat)).getD i 0))).map
        (fun p => Write.reg p.1 p.2) =
      (List.range 16).map (fun a => Write.reg a 0) := by
  rw [List.map_map]
  refine List.map_congr_left fun i hi => ?_
  have hi16 : i < 16 := List.mem_range.mp hi
  have hg : (List.replicate 16 (0 : Nat)).getD i 0 = 0 := by
    rw [List.getD_eq_getElem (List.replicate 16 (0 : Nat)) 0 (by simpa using hi16)]
    exact List.getElem_replicate _ _
  simp only [Function.comp_apply]
  rw [hg]

theorem initTrace_ok_part (ok : Nat → Bool) (h : ∀ i, i < 19 → ok i = true) :
    initTrace ok = (fullInitTrace, .ok (List.replicate 16 0)) := by
  have h0 : ok 0 = true := h 0 (by omega)
  have h17 : ok 17 = true := h 17 (by omega)
  have h18 : ok 18 = true := h 18 (by omega)
  have hfl := flushAux_ok (fun a => ok (a + 1)) (List.replicate 16 0) 0
    (fun i hi => by
      show ok (0 + i + 1) = true
      have hi16 : i < 16 := by simpa using hi
      rw [Nat.zero_add]
      exact h (i + 1) (by omega))
  simp only [List.length_replicate] at hfl
  unfold initTrace
  rw [if_pos h0]
  simp only [MEM_ROWS, hfl, h17, h18, if_pos rfl]
  rw [show set_blink_rate ((BLINK_OFF : Nat) : Int) = .ok 0x81 from rfl,
    show set_brightness 15 = .ok 0xEF from rfl]
  simp only [fullInitTrace, regTrace_eq]
  rfl

theorem initTrace_fail0 (ok : Nat → Bool) (h0 : ok 0 = false) :
    initTrace ok = ([Write.cmd 0x21], .error .TransportError) := by
  unfold initTrace
  rw [if_neg (by simp [h0])]
  rfl

theorem initTrace_fail_flush (ok : Nat → Bool) (k : Nat) (hk : k < 16)
    (h0 : ok 0 = true) (hpre : ∀ a, a < k → ok (a + 1) = true)
    (hfail : ok (k + 1) = false) :
    initTrace ok =
      (Write.cmd 0x21 :: (List.range (k + 1)).map (fun a => Write.reg a 0),
        .error .TransportError) := by
  have hfl := flushAux_fail (fun a => ok (a + 1)) (List.replicate 16 0) k 0
    (by simpa using hk)
    (fun i hi => by
      show ok (0 + i + 1) = true
      rw [Nat.zero_add]; exact hpre i hi)
    (by
      show ok (0 + k + 1) = false
      rw [Nat.zero_add]; exact hfail)
  unfold initTrace
  rw [if_pos h0]
  simp only [MEM_ROWS, hfl]
  refine congrArg (fun t =>
    (Write.cmd 0x21 :: t, Except.error Err.TransportError)) ?_
  rw [List.map_map]
  refine List.map_congr_left fun i hi => ?_
  have hi16 : i < 16 := by have := List.mem_range.mp hi; omega
  have hg : (List.replicate 16 (0 : Nat)).getD i 0 = 0 := by
    rw [List.getD_eq_getElem (List.replicate 16 (0 : Nat)) 0 (by simpa using hi16)]
    exact List.getElem_replicate _ _
  simp only [Function.comp_apply]
  rw [hg, Nat.zero_add]

theorem initTrace_fail_blink (ok : Nat → Bool) (h : ∀ i, i < 17 → ok i = true)
    (h17 : ok 17 = false) :
    initTrace ok =
      (Write.cmd 0x21 :: ((List.range 16).map (fun a => Write.reg a 0) ++
        [Write.cmd 0x81]), .error .TransportError) := by
  have h0 : ok 0 = true := h 0 (by omega)
  have hfl := flushAux_ok (fun a => ok (a + 1)) (List.replicate 16 0) 0
    (fun i hi => by
      show ok (0 + i + 1) = true
      have hi16 : i < 16 := by simpa using hi
      rw [Nat.zero_add]
      exact h (i + 1) (by omega))
  simp only [List.length_replicate] at hfl
  unfold initTrace
  rw [if_pos h0]
  simp only [MEM_ROWS, hfl]
  rw [show set_blink_rate ((BLINK_OFF : Nat) : Int) = .ok 0x81 from rfl]
  simp only [h17, Bool.false_eq_true, if_false, List.cons_append]
  exact congrArg (fun t =>
    (Write.cmd 0x21 :: (t ++ [Write.cmd 0x81]), Except.error Err.TransportError))
    regTrace_eq

theorem initTrace_fail_bright (ok : Nat → Bool) (h : ∀ i, i < 18 → ok i = true)
    (h18 : ok 18 = false) :
    initTrace ok = (fullInitTrace, .error .TransportError) := by
  have h0 : ok 0 = true := h 0 (by omega)
  have h17 : ok 17 = true := h 17 (by omega)
  have hfl := flushAux_ok (fun a => ok (a + 1)) (List.replicate 16 0) 0
    (fun i hi => by
      show ok (0 + i + 1) = true
      have hi16 : i < 16 := by simpa using hi
      rw [Nat.zero_add]
      exact h (i + 1) (by omega))
  simp only [List.length_replicate] at hfl
  unfold initTrace
  rw [if_pos h0]
  simp only [MEM_ROWS, hfl, h17, h18, if_pos rfl, Bool.false_eq_true, if_false]
  rw [show set_blink_rate ((BLINK_OFF : Nat) : Int) = .ok 0x81 from rfl,
    show set_brightness 15 = .ok 0xEF from rfl]
  simp only [fullInitTrace, regTrace_eq]
  rfl

/-- C9 (amended): construction zeroes the 16-row buffer, then performs, in
order, the system-setup-with-oscillator-on command byte `0x21`, the flush of
the zeroed buffer (16 register writes of `0x00` to addresses 0–15), the
blink-rate-OFF command byte `0x81`, and the brightness-15 command byte
`0xEF`; if any step's transport write fails, no later write is attempted and
the transport's `TransportError` propagates out of construction unchanged
(the code does not wrap it as an `InitializationError`). -/
theorem initTrace_spec (ok : Nat → Bool) :
    ((∀ i, i < 19 → ok i = true) →
      initTrace ok = (fullInitTrace, .ok (List.replicate 16 0))) ∧
    (ok 0 = false → initTrace ok = ([Write.cmd 0x21], .error .TransportError)) ∧
    (∀ k, k < 16 → ok 0 = true → (∀ a, a < k → ok (a + 1) = true) →
      ok (k + 1) = false →
      initTrace ok =
        (Write.cmd 0x21 :: (List.range (k + 1)).map (fun a => Write.reg a 0),
          .error .TransportError)) ∧
    ((∀ i, i < 17 → ok i = true) → ok 17 = false →
      initTrace ok =
        (Write.cmd 0x21 :: ((List.range 16).map (fun a => Write.reg a 0) ++
          [Write.cmd 0x81]), .error .TransportError)) ∧
    ((∀ i, i < 18 → ok i = true) → ok 18 = false →
      initTrace ok = (fullInitTrace, .error .TransportError)) :=
  ⟨initTrace_ok_part ok, initTrace_fail0 ok,
    fun k hk h0 hpre hfail => initTrace_fail_flush ok k hk h0 hpre hfail,
    initTrace_fail_blink ok, initTrace_fail_bright ok⟩

theorem initTrace_spec_witness :
    initTrace (fun i => decide (i ≠ 3)) =
      (Write.cmd 0x21 :: (List.range 3).map (fun a => Write.reg a 0),
        .error .TransportError) :=
  (initTrace_spec (fun i => decide (i ≠ 3))).2.2.1 2 (by decide) (by decide)
    (by decide) (by decide)

/-- C9 (counterexample to the claim as stated): with a transport whose very
first write fails, construction aborts with the propagated `TransportError`;
it does not surface an `InitializationError`. -/
theorem initTrace_error_name_counterexample :
    initTrace (fun i => decide (i ≠ 0)) =
      ([Write.cmd 0x21], .error .TransportError) ∧
    Err.TransportError ≠ Err.InitializationError :=
  ⟨rfl, by decide⟩

end HT16K33
